import Mathlib

/-!
Shallow embedding of `app/services/vllm_integration_service.py`
(Hi-dle-hancom/backend) and proofs about the claims of its specification.

Conventions used throughout:
* Python strings are Lean `String`s; character-level work happens on `String.data`.
* Python floats are modelled as exact rationals (`ℚ`); the constants involved
  (`0.3`, `0.2`, `1.5`, …) are small decimals, and every concrete value asserted
  below is reached without a rounding-sensitive step.
* Python `int(x)` is modelled as truncation toward zero (`pyTrunc`).
* External collaborators (the `json` module, the `re` engine behind the
  inline-code fallback patterns, the network) are passed in as explicit
  parameters or as explicit input data, mirroring the narrow interface the
  source uses.
* Fallible Python code is modelled with `Option`/`Except`; an uncaught
  exception inside a helper is an `Except.error`.
-/

namespace VllmService

/-! ## Python string primitives -/

/-- Python's notion of whitespace for `str.strip` / `\s` (ASCII part; the
source never feeds other Unicode whitespace to these helpers). -/
def pyWs (c : Char) : Bool :=
  c = ' ' ∨ c = '\t' ∨ c = '\n' ∨ c = '\r' ∨ c = '\x0b' ∨ c = '\x0c'

/-- `str.strip()` on a list of characters. -/
def stripList (cs : List Char) : List Char :=
  ((cs.dropWhile pyWs).reverse.dropWhile pyWs).reverse

/-- `str.strip()`. -/
def pyStrip (s : String) : String := ⟨stripList s.data⟩

/-- `s.count(ch)` for a single character. -/
def countChar (cs : List Char) (ch : Char) : Nat :=
  cs.countP (fun c => c = ch)

/-- Case-sensitive prefix test on character lists. -/
def isPre : List Char → List Char → Bool
  | [], _ => true
  | _ :: _, [] => false
  | p :: ps, c :: cs => p = c ∧ isPre ps cs

/-- Python `sub in s` (substring containment). -/
def containsSub (pat : List Char) : List Char → Bool
  | [] => isPre pat []
  | c :: cs => isPre pat (c :: cs) ∨ containsSub pat cs

/-- Python `sub in s` on `String`s. -/
def strContains (s pat : String) : Bool := containsSub pat.data s.data

/-- `s.startswith(p)` on `String`s. -/
def pyStartsWith (s p : String) : Bool := isPre p.data s.data

/-- `s[n:]` on `String`s. -/
def strDrop (s : String) (n : Nat) : String := ⟨s.data.drop n⟩

/-- Python `s.split('\\n')` (keeps empty parts). -/
def splitNLAux : List Char → List Char → List String
  | acc, [] => [(⟨acc.reverse⟩ : String)]
  | acc, c :: cs =>
    if c = '\n' then (⟨acc.reverse⟩ : String) :: splitNLAux [] cs
    else splitNLAux (c :: acc) cs

def pySplitNL (s : String) : List String := splitNLAux [] s.data

/-- Python `sep.join(parts)`. -/
def joinWith (sep : String) : List String → String
  | [] => ""
  | [x] => x
  | x :: xs => x ++ sep ++ joinWith sep xs

/-- Python `int(x)` on a rational: truncation toward zero. -/
def pyTrunc (q : ℚ) : ℤ := if q < 0 then -((-q).floor) else q.floor

/-! ## `CodeQualityValidator._check_bracket_balance` -/

/-- The `brackets` dict of `_check_bracket_balance`: opener ↦ its closer. -/
def closerOf (c : Char) : Option Char :=
  if c = '(' then some ')'
  else if c = '[' then some ']'
  else if c = '\x7b' then some '\x7d'
  else none

/-- `char in brackets` (the opener set). -/
def isOpenB (c : Char) : Bool := (closerOf c).isSome

/-- `char in brackets.values()` (the closer set). -/
def isCloseB (c : Char) : Bool := c = ')' ∨ c = ']' ∨ c = '\x7d'

def isBracketB (c : Char) : Bool := isOpenB c ∨ isCloseB c

/-- The issue string reported for `len(stack)` unmatched openers. -/
def unclosedMsg (n : Nat) : String := "닫히지 않은 괄호: " ++ toString n ++ "개"

/-- The issue string reported when a closer arrives on an empty stack. -/
def overCloseMsg : String := "닫는 괄호가 여는 괄호보다 많음"

/-- The issue string reported for a type mismatch (`f"괄호 타입 불일치: ..."`). -/
def mismatchMsg (o c : Char) : String :=
  "괄호 타입 불일치: " ++ o.toString ++ " vs " ++ c.toString

/-- The scanning loop of `_check_bracket_balance`, carrying the stack.
On a closer meeting an empty stack the issue is recorded and the loop
`break`s (the stack is empty there, so no trailing unclosed issue follows);
on a type mismatch the issue is recorded and scanning continues. -/
def checkBracketAux : List Char → List Char → List String
  | [], st => if st ≠ [] then [unclosedMsg st.length] else []
  | ch :: cs, st =>
    if isOpenB ch then checkBracketAux cs (ch :: st)
    else if isCloseB ch then
      match st with
      | [] => [overCloseMsg]
      | o :: rest =>
        if closerOf o = some ch then checkBracketAux cs rest
        else mismatchMsg o ch :: checkBracketAux cs rest
    else checkBracketAux cs st

/-- `CodeQualityValidator._check_bracket_balance`. -/
def check_bracket_balance (code : String) : List String :=
  checkBracketAux code.data []

/-- Error-stopping variant of the same stack machine: `some st` is the final
stack of a scan that met no over-close and no mismatch, `none` otherwise.
(Only used to state and prove properties; not itself a source function.) -/
def runStack : List Char → List Char → Option (List Char)
  | [], st => some st
  | ch :: cs, st =>
    if isOpenB ch then runStack cs (ch :: st)
    else if isCloseB ch then
      match st with
      | [] => none
      | o :: rest => if closerOf o = some ch then runStack cs rest else none
    else runStack cs st

/-! ### Bracket-balance theory

`Dyck` is the independent grammar of properly nested bracket strings
(`D → ε | ⟨open⟩ D ⟨close⟩ D`); the theorems below connect it to the
stack-based checker of the source. -/

inductive Dyck : List Char → Prop
  | nil : Dyck []
  | cons {o c : Char} {inner rest : List Char} :
      closerOf o = some c → Dyck inner → Dyck rest → Dyck (o :: inner ++ c :: rest)

/-- The checker's stack machine as an inductive acceptance relation:
`DyckS cs st` holds when input `cs` drives the stack from `st` down to `[]`
without an over-close or a mismatch. -/
inductive DyckS : List Char → List Char → Prop
  | nil : DyckS [] []
  | push {o : Char} {cs st : List Char} :
      isOpenB o → DyckS cs (o :: st) → DyckS (o :: cs) st
  | pop {o c : Char} {cs st : List Char} :
      closerOf o = some c → DyckS cs st → DyckS (c :: cs) (o :: st)

/-- `Parts cs st`: `cs` decomposes as Dyck segments separated by the closers
of the pending stack `st`, in order. -/
inductive Parts : List Char → List Char → Prop
  | base {p : List Char} : Dyck p → Parts p []
  | step {p : List Char} {o c : Char} {cs st : List Char} :
      Dyck p → closerOf o = some c → Parts cs st → Parts (p ++ c :: cs) (o :: st)

/-! ## `CodeQualityValidator._check_quote_balance` -/

/-- `CodeQualityValidator._check_quote_balance`: parity of quote counts. -/
def check_quote_balance (code : String) : List String :=
  let single_quotes := countChar code.data '\''
  let double_quotes := countChar code.data '"'
  (if single_quotes % 2 ≠ 0 then ["홀수 개의 단일 따옴표"] else []) ++
  (if double_quotes % 2 ≠ 0 then ["홀수 개의 이중 따옴표"] else [])

/-! ## `CodeQualityValidator.validate_code_chunk`

The two remaining checks delegate their entire work to external engines:
`_check_basic_syntax` is four `re.search` calls into Python's regex engine and
`_check_ast_validity` is `ast.parse` (the full CPython parser).  Both are
modelled as explicit function parameters `syntaxCheck` / `astCheck`
(`String → List String`, the produced issue lists), mirroring the narrow
interface the aggregator uses.  Every theorem below either quantifies over
them or instantiates them explicitly. -/

structure ValidationResult where
  valid : Bool
  issues : List String
  confidence : ℚ
  /-- `code_length` is absent from the early-return dict, hence `Option`. -/
  code_length : Option Nat
  /-- `line_count` is absent from the early-return dict, hence `Option`. -/
  line_count : Option Nat
  deriving Repr, DecidableEq

/-- `CodeQualityValidator.validate_code_chunk`.  `validation_enabled` is set
to `True` in `__init__` and never cleared, so only the `code.strip()` guard
remains. -/
def validate_code_chunk (syntaxCheck astCheck : String → List String)
    (code : String) : ValidationResult :=
  if pyStrip code = "" then
    { valid := true, issues := [], confidence := 1,
      code_length := none, line_count := none }
  else
    let syntax_issues := syntaxCheck code
    let issues₁ : List String := [] ++ syntax_issues
    let confidence₁ : ℚ := if syntax_issues ≠ [] then 1 - 0.3 else 1
    let balance_issues := check_bracket_balance code
    let issues₂ := issues₁ ++ balance_issues
    let confidence₂ := if balance_issues ≠ [] then confidence₁ - 0.2 else confidence₁
    let quote_issues := check_quote_balance code
    let issues₃ := issues₂ ++ quote_issues
    let confidence₃ := if quote_issues ≠ [] then confidence₂ - 0.2 else confidence₂
    let ast_issues := astCheck code
    let issues₄ := issues₃ ++ ast_issues
    let confidence₄ := if ast_issues ≠ [] then confidence₃ - 0.3 else confidence₃
    { valid := issues₄.length = 0,
      issues := issues₄,
      confidence := max 0 confidence₄,
      code_length := some code.length,
      line_count := some (countChar code.data '\n' + 1) }

/-! ## `CodeQualityValidator.suggest_fix` -/

/-- `CodeQualityValidator.suggest_fix`: scans the issue strings and applies
the three keyword-triggered textual repairs in order. -/
def suggest_fix (code : String) (issues : List String) : String :=
  issues.foldl (fun fixed_code issue =>
    if strContains issue "닫히지 않은 괄호" then
      let open_count := countChar fixed_code.data '('
      let close_count := countChar fixed_code.data ')'
      if open_count > close_count then
        fixed_code ++ ⟨List.replicate (open_count - close_count) ')'⟩
      else fixed_code
    else if strContains issue "홀수 개의 단일 따옴표" then
      if countChar fixed_code.data '\'' % 2 ≠ 0 then fixed_code ++ "'" else fixed_code
    else if strContains issue "홀수 개의 이중 따옴표" then
      if countChar fixed_code.data '"' % 2 ≠ 0 then fixed_code ++ "\"" else fixed_code
    else fixed_code) code

/-! ## `VLLMIntegrationService.connect` (C1)

The network is modelled by `probe : Nat → Bool`, giving the outcome of the
health probe made while `connection_retries` has a given value (`true` = the
`GET /health` returned 200).  The function returns the list of backoff sleeps
performed (in seconds, in order) and `some retries` (the final value of
`connection_retries`, which the source resets to `0`) on success, or `none`
for the raised `ConnectionError`.  Structural recursion uses a fuel argument;
`connect` passes `maxRetries` fuel, which is enough since every recursive call
has `retries + 1 < maxRetries`. -/
def connectAux (maxRetries : Nat) (probe : Nat → Bool) : Nat → Nat → List Nat × Option Nat
  | fuel, retries =>
    if probe retries then ([], some 0)
    else
      let r := retries + 1
      if r < maxRetries then
        match fuel with
        | 0 => ([], none)
        | f + 1 =>
          let rest := connectAux maxRetries probe f r
          (2 ^ r :: rest.1, rest.2)
      else ([], none)

/-- `VLLMIntegrationService.connect`, starting from retry counter `retries`. -/
def connect (maxRetries : Nat) (probe : Nat → Bool) (retries : Nat) : List Nat × Option Nat :=
  connectAux maxRetries probe maxRetries retries

/-! ## `VLLMIntegrationService._prepare_vllm_payload` (C8) -/

/-- The complexity tier supplied by the adaptive-buffer collaborator. -/
inductive Complexity where
  | simple
  | medium
  | complex
  deriving DecidableEq

def Complexity.value : Complexity → String
  | .simple => "simple"
  | .medium => "medium"
  | .complex => "complex"

/-- The user-preference mapping: `.get(key, default)` is `Option.getD`.
`none` fields model absent keys. -/
structure Prefs where
  skill_level : Option String
  code_style : Option String
  safety_level : Option String
  deriving DecidableEq

/-- The empty preference dict (`{}`). -/
def emptyPrefs : Prefs := ⟨none, none, none⟩

/-- The three decoding parameters of the vLLM payload. -/
structure VllmParams where
  temperature : ℚ
  max_tokens : ℤ
  top_p : ℚ
  deriving DecidableEq

/-- The parameter part of `VLLMIntegrationService._prepare_vllm_payload`,
faithful to the source's order of adjustments.  A `none` preference models
both `None` and the falsy empty dict (`if user_preferences:`). -/
def prepare_vllm_params (user_preferences : Option Prefs) (complexity : Complexity) :
    VllmParams :=
  let base_temperature : ℚ := 0.3
  let base_max_tokens : ℤ := 400
  let base_top_p : ℚ := 0.8
  let adjusted :=
    match user_preferences with
    | none => (base_temperature, base_max_tokens, base_top_p)
    | some prefs =>
      let skill_level := prefs.skill_level.getD "intermediate"
      let code_style := prefs.code_style.getD "standard"
      let safety_level := prefs.safety_level.getD "standard"
      let base_max_tokens :=
        if skill_level = "beginner" then pyTrunc ((base_max_tokens : ℚ) * 1.5)
        else if skill_level = "expert" then pyTrunc ((base_max_tokens : ℚ) * 0.8)
        else base_max_tokens
      let base_temperature :=
        if code_style = "concise" then max (base_temperature * 0.8) 0.1
        else if code_style = "detailed" then min (base_temperature * 1.2) 0.4
        else base_temperature
      let base_top_p :=
        if safety_level = "enhanced" then max (base_top_p * 0.9) 0.7
        else if safety_level = "minimal" then min (base_top_p * 1.1) 0.95
        else base_top_p
      (base_temperature, base_max_tokens, base_top_p)
  let base_temperature := adjusted.1
  let base_max_tokens := adjusted.2.1
  let base_top_p := adjusted.2.2
  if complexity.value = "simple" then
    ⟨base_temperature, base_max_tokens, base_top_p⟩
  else if complexity.value = "medium" then
    ⟨min (base_temperature * 1.3) 0.5, pyTrunc ((base_max_tokens : ℚ) * 1.5),
     min (base_top_p * 1.1) 0.9⟩
  else
    ⟨min (base_temperature * 1.6) 0.7, pyTrunc ((base_max_tokens : ℚ) * 2.0),
     min (base_top_p * 1.2) 0.95⟩

/-- The layered scaling rule exactly as the spec words it (§4.2, steps 1–5
in order: baseline, skill level, style, safety, complexity overlay last).
Stated separately from `prepare_vllm_params` so the two can be compared. -/
def prepare_vllm_params_spec (prefs : Option Prefs) (tier : Complexity) : VllmParams :=
  let temperature : ℚ := 0.3
  let tokens : ℤ := 400
  let nucleus : ℚ := 0.8
  let skill := match prefs with
    | none => "intermediate"
    | some pr => pr.skill_level.getD "intermediate"
  let tokens :=
    if skill = "beginner" then pyTrunc ((tokens : ℚ) * 1.5)
    else if skill = "expert" then pyTrunc ((tokens : ℚ) * 0.8)
    else tokens
  let style := match prefs with
    | none => "standard"
    | some pr => pr.code_style.getD "standard"
  let temperature :=
    if style = "concise" then max (temperature * 0.8) 0.1
    else if style = "detailed" then min (temperature * 1.2) 0.4
    else temperature
  let safety := match prefs with
    | none => "standard"
    | some pr => pr.safety_level.getD "standard"
  let nucleus :=
    if safety = "enhanced" then max (nucleus * 0.9) 0.7
    else if safety = "minimal" then min (nucleus * 1.1) 0.95
    else nucleus
  match tier with
  | .simple => ⟨temperature, tokens, nucleus⟩
  | .medium =>
    ⟨min (temperature * 1.3) 0.5, pyTrunc ((tokens : ℚ) * 1.5), min (nucleus * 1.1) 0.9⟩
  | .complex =>
    ⟨min (temperature * 1.6) 0.7, pyTrunc ((tokens : ℚ) * 2.0), min (nucleus * 1.2) 0.95⟩

/-! ## The streaming request payload (C9) -/

/-- Modelled from the spec: the fixed enumeration of request kinds of
`CodeGenerationRequest.model_type` (`app/schemas/code_generation.py`, which is
not under `src/`; spec §3 "model kind (one of a fixed enumeration)"). -/
inductive ModelType where
  | code_generation
  | code_completion
  | code_explanation
  | code_review
  | bug_fix
  | code_optimization
  | unit_test_generation
  | documentation
  deriving DecidableEq

/-- `self.model_mapping`, composed with the `VLLMModelType` string constants.
The dict covers all eight kinds, so `dict.get`'s default is unreachable. -/
def model_mapping : ModelType → String
  | .code_generation => "prompt"
  | .code_completion => "autocomplete"
  | .code_explanation => "comment"
  | .code_review => "comment"
  | .bug_fix => "error_fix"
  | .code_optimization => "prompt"
  | .unit_test_generation => "prompt"
  | .documentation => "comment"

/-- Modelled from the spec: `CodeGenerationRequest` (schema file not under
`src/`; spec §3: prompt, optional context, model kind, optional max tokens,
temperature, nucleus threshold). -/
structure CodeGenerationRequest where
  prompt : String
  context : Option String
  model_type : ModelType
  max_tokens : Option ℤ
  temperature : Option ℚ
  top_p : Option ℚ

/-- Python `x or d` on an optional int: `None` and `0` are falsy. -/
def pyOrI (v : Option ℤ) (d : ℤ) : ℤ :=
  match v with
  | none => d
  | some x => if x = 0 then d else x

/-- Python `x or d` on an optional float: `None` and `0.0` are falsy. -/
def pyOrQ (v : Option ℚ) (d : ℚ) : ℚ :=
  match v with
  | none => d
  | some x => if x = 0 then d else x

/-- The JSON body `generate_code_streaming` posts to `/generate/stream`.
`user_id` is an opaque salted `hash`, passed as a parameter. -/
structure StreamPayload where
  user_id : ℤ
  prompt : String
  model_type : String
  user_select_options : Prefs
  max_tokens : ℤ
  temperature : ℚ
  top_p : ℚ

/-- The payload construction at the top of `generate_code_streaming`.
`user_preferences or {}`: `none` models `None`; an explicitly empty dict is
`emptyPrefs`, and `emptyPrefs or {}` is again `emptyPrefs`, so `getD` is
faithful. -/
def stream_payload (hash : String → ℤ) (request : CodeGenerationRequest)
    (user_id : String) (user_preferences : Option Prefs) : StreamPayload :=
  { user_id := hash user_id % 1000000
    prompt := request.prompt
    model_type := model_mapping request.model_type
    user_select_options := user_preferences.getD emptyPrefs
    max_tokens := pyOrI request.max_tokens 512
    temperature := pyOrQ request.temperature 0.7
    top_p := pyOrQ request.top_p 0.9 }

/-! ## JSON values and `_process_stream_line` (C3) -/

/-- JSON values as `json.loads` produces them.  Objects are dicts (keys
unique). -/
inductive JVal where
  | null
  | bool (b : Bool)
  | num (q : ℚ)
  | str (s : String)
  | arr (elems : List JVal)
  | obj (fields : List (String × JVal))

/-- Python truthiness of a JSON value. -/
def jTruthy : JVal → Bool
  | .null => false
  | .bool b => b
  | .num q => q ≠ 0
  | .str s => s ≠ ""
  | .arr l => !l.isEmpty
  | .obj l => !l.isEmpty

/-- `dict.get` on a JSON object. -/
def jGet (fields : List (String × JVal)) (k : String) : Option JVal :=
  (fields.find? (fun p => p.1 = k)).map Prod.snd

/-- `parsed_data.get('type') == 'done'`. -/
def isDoneType (v : Option JVal) : Bool :=
  match v with
  | some (.str s) => s = "done"
  | _ => false

/-- The events yielded by the streaming generator, keeping the shape of the
source's dicts: `token` carries the payload's `text` value (`is_complete`
false); `done` carries empty content (`is_complete` true); `error` carries the
message (`is_complete` true). -/
inductive StreamEvent where
  | token (content : JVal)
  | done
  | error (msg : String)

/-- Event classifiers. -/
def isTokenEv : StreamEvent → Bool
  | .token _ => true
  | _ => false

def isTerminalEv : StreamEvent → Bool
  | .done => true
  | .error _ => true
  | _ => false

/-- `VLLMIntegrationService._process_stream_line`.  `jsonLoads` models
`json.loads` (`none` = `json.JSONDecodeError`, which the source catches and
maps to `None`).  `.error ()` models the uncaught `AttributeError` raised by
`parsed_data.get` when the payload is valid JSON but not a dict; the caller's
chunk-level handler catches it. -/
def process_stream_line (jsonLoads : String → Option JVal) (line_text : String) :
    Except Unit (Option StreamEvent) :=
  if line_text = "" then .ok none
  else if ¬ pyStartsWith line_text "data: " then .ok none
  else if line_text = "data: [DONE]" then .ok (some .done)
  else
    match jsonLoads (strDrop line_text 6) with
    | none => .ok none
    | some parsed_data =>
      match parsed_data with
      | .obj fields =>
        if isDoneType (jGet fields "type") then .ok (some .done)
        else
          match jGet fields "text" with
          | some tv => if jTruthy tv then .ok (some (.token tv)) else .ok none
          | none => .ok none
      | _ => .error ()

/-! ## `generate_code_streaming` (C4) -/

/-- One chunk from `response.content.iter_chunked`: `.error` models a
`UnicodeDecodeError` from `chunk.decode` (caught, chunk skipped); `.ok text`
the decoded text — `.ok ""` is the falsy chunk the `if not chunk` guard
skips. -/
abbrev Chunk := Except Unit String

/-- The observable behaviour of one streaming HTTP exchange: whether the
`connect()` call succeeds, the response status, the received chunks, and an
optional read error raised after them. -/
structure StreamResponse where
  connectOk : Bool
  status : Nat
  chunks : List Chunk
  ioError : Option String

/-- The inner `for line in lines` loop over one chunk's lines.  Returns the
events yielded and whether a `done` event ended the generator.  A line whose
processing raises (`.error`) is caught by the chunk-level `except`, which
`continue`s the chunk loop — so the rest of this chunk's lines are skipped
but earlier yields stand. -/
def processChunkLines (jl : String → Option JVal) : List String → List StreamEvent × Bool
  | [] => ([], false)
  | line :: lines =>
    let line_text := pyStrip line
    if line_text ≠ "" ∧ line_text ≠ "data: " then
      match process_stream_line jl line_text with
      | .error _ => ([], false)
      | .ok none => processChunkLines jl lines
      | .ok (some ev) =>
        match ev with
        | .done => ([StreamEvent.done], true)
        | _ =>
          let rest := processChunkLines jl lines
          (ev :: rest.1, rest.2)
    else processChunkLines jl lines

/-- The `async for chunk in response.content.iter_chunked(8192)` loop. -/
def processChunks (jl : String → Option JVal) : List Chunk → List StreamEvent × Bool
  | [] => ([], false)
  | c :: cs =>
    match c with
    | .error _ => processChunks jl cs
    | .ok text =>
      if text = "" then processChunks jl cs
      else
        let r := processChunkLines jl (pySplitNL text)
        if r.2 then r
        else
          let rest := processChunks jl cs
          (r.1 ++ rest.1, rest.2)

/-- `VLLMIntegrationService.generate_code_streaming` as the list of events it
yields, given the exchange's observable behaviour.  A failed `connect()`
raises `ConnectionError`, caught by the outermost handler; a non-200 status
yields one error event; a mid-read exception yields one error event; a
normally exhausted body is followed by the final `done`. -/
def generate_code_streaming (jl : String → Option JVal) (resp : StreamResponse) :
    List StreamEvent :=
  if ¬ resp.connectOk then
    [StreamEvent.error "오류: vLLM 서버 연결 최대 재시도 횟수 초과"]
  else if resp.status ≠ 200 then
    [StreamEvent.error ("API 오류: " ++ toString resp.status)]
  else
    let r := processChunks jl resp.chunks
    if r.2 then r.1
    else
      match resp.ioError with
      | some m => r.1 ++ [StreamEvent.error ("Transfer-Encoding 오류: " ++ m)]
      | none => r.1 ++ [StreamEvent.done]

/-! ## `ResponseParser` (C2, C10)

The two fenced-block patterns `r'```python\s*(.*?)\s*```'` and
`r'```\s*(.*?)\s*```'` (DOTALL, IGNORECASE) are implemented directly: a
lazy `(.*?)` bounded by `\s*```` ends at the first occurrence of ```` ``` ````
after the opening marker, and the `\s*` paddings only shave whitespace that
the subsequent `.strip()` removes anyway, so each `findall` capture strips to
exactly the text strictly between the (case-insensitive) opening marker and
the next ```` ``` ````; scanning resumes after that closing fence, and an
unclosed final marker yields no further matches.  The recursions below use a
character-count fuel (each step consumes at least the marker), so the fuel
`length + 1` is never exhausted. -/

/-- Case-insensitive prefix test (`re.IGNORECASE`). -/
def isPreCI : List Char → List Char → Bool
  | [], _ => true
  | _ :: _, [] => false
  | p :: ps, c :: cs => p.toLower = c.toLower ∧ isPreCI ps cs

/-- Split at the first case-insensitive occurrence of `pat`:
`(text before the match, text after the match)`. -/
def splitAtSubCI (pat : List Char) : List Char → Option (List Char × List Char)
  | [] => if isPreCI pat [] then some ([], []) else none
  | c :: cs =>
    if isPreCI pat (c :: cs) then some ([], (c :: cs).drop pat.length)
    else
      match splitAtSubCI pat cs with
      | some (b, a) => some (c :: b, a)
      | none => none

/-- The `re.findall` of a fence pattern: regions strictly between `marker`
and the next closing fence. -/
def fencedRegionsAux (marker close : List Char) : Nat → List Char → List (List Char)
  | 0, _ => []
  | fuel + 1, cs =>
    match splitAtSubCI marker cs with
    | none => []
    | some (_, rest) =>
      match splitAtSubCI close rest with
      | none => []
      | some (content, rest2) => content :: fencedRegionsAux marker close fuel rest2

/-- The closing fence. -/
def fenceClose : String := "```"

def fencedRegions (marker : String) (text : String) : List String :=
  (fencedRegionsAux marker.data fenceClose.data (text.data.length + 1) text.data).map
    (fun r => (⟨r⟩ : String))

/-- The `re.sub(pattern, '', text)` of a fence pattern
(`r'```python.*?```'` / `r'```.*?```'`, DOTALL, IGNORECASE): removes each
region from a marker through the next closing fence. -/
def removeFencedAux (marker close : List Char) : Nat → List Char → List Char
  | 0, cs => cs
  | fuel + 1, cs =>
    match splitAtSubCI marker cs with
    | none => cs
    | some (before, rest) =>
      match splitAtSubCI close rest with
      | none => cs
      | some (_, rest2) => before ++ removeFencedAux marker close fuel rest2

def removeFenced (marker : String) (text : String) : String :=
  ⟨removeFencedAux marker.data fenceClose.data (text.data.length + 1) text.data⟩

/-- `text.replace(block, '')`: removes every (case-sensitive, non-overlapping,
left-to-right) occurrence.  Only called with non-empty `pat` (extracted blocks
have length ≥ 3). -/
def removeAllSubAux (pat : List Char) : Nat → List Char → List Char
  | 0, cs => cs
  | fuel + 1, cs =>
    match cs with
    | [] => []
    | c :: cs' =>
      if pat ≠ [] ∧ isPre pat (c :: cs') then
        removeAllSubAux pat fuel ((c :: cs').drop pat.length)
      else c :: removeAllSubAux pat fuel cs'

def removeAllSub (pat : String) (text : String) : String :=
  ⟨removeAllSubAux pat.data (text.data.length + 1) text.data⟩

/-- `self.explanation_markers`. -/
def explanation_markers : List String :=
  ["이 코드는", "설명:", "다음과 같이", "작동 방식:",
   "주요 기능:", "사용법:", "예시:", "참고:",
   "This code", "Explanation:", "How it works:",
   "Usage:", "Example:", "Note:"]

/-- `ResponseParser._extract_code_blocks`.  The fenced patterns are
implemented above; the inline fallback (`code_patterns[2:]`, four `re.findall`
scans run only когда no fenced block was found) delegates its pattern
matching wholesale to Python's `re` engine and is modelled as the parameter
`inlineFallback`, returning the stripped non-empty matches in order.  No
claim below depends on its output: every claim input either contains a fence
or is empty. -/
def fencedBlocks (text : String) : List String :=
  ((fencedRegions "```python" text).map pyStrip).filter (fun m => m ≠ "") ++
  ((fencedRegions "```" text).map pyStrip).filter (fun m => m ≠ "")

def extract_code_blocks (inlineFallback : String → List String) (text : String) :
    List String :=
  let code_blocks := fencedBlocks text
  let code_blocks := if code_blocks = [] then inlineFallback text else code_blocks
  code_blocks.foldl (fun unique_blocks block =>
    if block ≠ "" ∧ ¬ unique_blocks.contains block ∧ block.length ≥ 3 then
      unique_blocks ++ [block]
    else unique_blocks) []

/-- `ResponseParser._extract_explanation`. -/
def extract_explanation (text : String) (code_blocks : List String) : String :=
  let explanation_text := removeFenced "```python" text
  let explanation_text := removeFenced "```" explanation_text
  let explanation_text :=
    code_blocks.foldl (fun acc block => removeAllSub block acc) explanation_text
  let lines := pySplitNL explanation_text
  let explanation_lines := lines.filterMap (fun line =>
    let line := pyStrip line
    if line = "" then none
    else
      let is_explanation := explanation_markers.any (fun m => strContains line m)
      let is_not_code :=
        ¬ (["def ", "class ", "import ", "print(", "="].any (fun p => strContains line p))
      if is_explanation ∨ (is_not_code ∧ line.length > 10) then some line else none)
  joinWith "\n" explanation_lines

/-- `ResponseParser._merge_code_blocks`. -/
def merge_code_blocks (code_blocks : List String) : String :=
  if code_blocks = [] then ""
  else
    let unique_blocks := code_blocks.foldl (fun acc block =>
      if ¬ acc.contains block then acc ++ [block] else acc) []
    match unique_blocks with
    | [b] => b
    | u => joinWith "\n\n" u

/-- The characters of the class `[#*\-=]`. -/
def markerCharB (c : Char) : Bool := c = '#' ∨ c = '*' ∨ c = '-' ∨ c = '='

/-- `re.sub(r'^[#*\-=]+\s*', '', e, flags=re.MULTILINE)`: at each line start,
a greedy run of marker characters plus trailing whitespace (which may cross
newlines) is removed; scanning resumes at the end of the removed span, which
is a line start again iff the last removed character was a newline. -/
def cleanMarkersAux : Nat → Bool → List Char → List Char
  | 0, _, cs => cs
  | fuel + 1, atLineStart, cs =>
    match cs with
    | [] => []
    | c :: cs' =>
      if atLineStart ∧ markerCharB c then
        let afterMarks := (c :: cs').dropWhile markerCharB
        let ws := afterMarks.takeWhile pyWs
        let rest := afterMarks.drop ws.length
        let nextStart := match ws.getLast? with
          | some lastWs => lastWs = '\n'
          | none => False
        cleanMarkersAux fuel nextStart rest
      else c :: cleanMarkersAux fuel (c = '\n') cs'

/-- `re.sub(r'\n\s*\n\s*\n', '\n\n', e)`: a newline followed by a
whitespace run containing at least two more newlines is collapsed; the match
extends (greedily, after backtracking) through the last newline of the run. -/
def collapseNLAux : Nat → List Char → List Char
  | 0, cs => cs
  | fuel + 1, cs =>
    match cs with
    | [] => []
    | c :: cs' =>
      if c = '\n' then
        let run := cs'.takeWhile pyWs
        if 1 + countChar run '\n' ≥ 3 then
          let upTo := (run.reverse.dropWhile (fun x => ¬ x = '\n')).reverse
          '\n' :: '\n' :: collapseNLAux fuel (cs'.drop upTo.length)
        else c :: collapseNLAux fuel cs'
      else c :: collapseNLAux fuel cs'

/-- `ResponseParser._clean_explanation`. -/
def clean_explanation (explanation : String) : String :=
  if explanation = "" then ""
  else
    let e := (⟨cleanMarkersAux (explanation.data.length + 1) true explanation.data⟩ : String)
    let e := (⟨collapseNLAux (e.data.length + 1) e.data⟩ : String)
    pyStrip e

/-- `ResponseParser._calculate_confidence`. -/
def calculate_confidence (explanation code : String) : ℚ :=
  let confidence : ℚ := 0.5
  let confidence := if code ≠ "" ∧ code.length > 10 then confidence + 0.3 else confidence
  let confidence :=
    if explanation ≠ "" ∧ explanation.length > 20 then confidence + 0.2 else confidence
  let confidence :=
    if explanation ≠ "" ∧ code ≠ "" ∧
        explanation_markers.any (fun m => strContains explanation m) then
      confidence + 0.1
    else confidence
  min 1 confidence

/-- The `metadata` entry of a parsed response. -/
structure ParsedMeta where
  code_blocks_found : Nat
  has_explanation : Bool
  parsing_confidence : ℚ

/-- The dict returned by `ResponseParser.parse_response`; the early return
for blank input carries no `metadata` key, hence the `Option`. -/
structure ParsedResponse where
  explanation : String
  code : String
  metadata : Option ParsedMeta

/-- `ResponseParser.parse_response`. -/
def parse_response (inlineFallback : String → List String) (raw_response : String) :
    ParsedResponse :=
  if pyStrip raw_response = "" then ⟨"", "", none⟩
  else
    let code_blocks := extract_code_blocks inlineFallback raw_response
    let explanation_text := extract_explanation raw_response code_blocks
    let final_code := merge_code_blocks code_blocks
    let final_explanation := clean_explanation explanation_text
    { explanation := final_explanation
      code := final_code
      metadata := some
        { code_blocks_found := code_blocks.length
          has_explanation := final_explanation ≠ ""
          parsing_confidence := calculate_confidence final_explanation final_code } }

/-! ## `generate_code_sync` (C10) -/

/-- `len(s.split())`: number of maximal non-whitespace runs. -/
def countWordsAux : Bool → List Char → Nat
  | _, [] => 0
  | inWord, c :: cs =>
    if pyWs c then countWordsAux false cs
    else (if inWord then 0 else 1) + countWordsAux true cs

/-- The fields of `CodeGenerationResponse` that this service sets
(`processing_time`, a wall-clock reading, is omitted; the optional
personalisation metadata block only annotates a successful response and is
not modelled). -/
structure CodeGenerationResponse where
  success : Bool
  generated_code : String
  explanation : Option String
  error_message : Option String
  model_used : String
  token_usage_total : Nat
  confidence_score : Option ℚ

/-- The failure response built in `generate_code_sync`'s `except` handler. -/
def syncFailure (msg : String) : CodeGenerationResponse :=
  { success := false, generated_code := "", explanation := none,
    error_message := some msg, model_used := "vllm",
    token_usage_total := 0, confidence_score := none }

/-- After the event loop: parse the accumulated text and build the success
response.  `parsed_response["metadata"]` on the blank-input result raises
`KeyError('metadata')`, caught by the handler. -/
def syncFinish (fb : String → List String) (accumulated_content : String) :
    CodeGenerationResponse :=
  let parsed := parse_response fb accumulated_content
  match parsed.metadata with
  | none => syncFailure "코드 생성 실패: 'metadata'"
  | some meta =>
    { success := true
      generated_code := parsed.code
      explanation := some parsed.explanation
      error_message := none
      model_used := "vllm"
      token_usage_total := countWordsAux false accumulated_content.data
      confidence_score := some meta.parsing_confidence }

/-- The event loop of `generate_code_sync`: accumulate `token` contents until
`done`, return the structured failure on the first `error`.  A non-string
token content would raise `TypeError` in `accumulated_content += ...`,
caught by the handler. -/
def syncFromEventsAux (fb : String → List String) :
    String → List StreamEvent → CodeGenerationResponse
  | acc, [] => syncFinish fb acc
  | acc, ev :: evs =>
    match ev with
    | .token content =>
      match content with
      | .str s => syncFromEventsAux fb (acc ++ s) evs
      | _ => syncFailure "코드 생성 실패: TypeError"
    | .done => syncFinish fb acc
    | .error msg => syncFailure msg

/-- `VLLMIntegrationService.generate_code_sync`, composed with the streaming
generator model. -/
def generate_code_sync (fb : String → List String) (jl : String → Option JVal)
    (resp : StreamResponse) : CodeGenerationResponse :=
  syncFromEventsAux fb "" (generate_code_streaming jl resp)

/-! ## Statement helpers (not themselves source functions) -/

/-- Which of the four issue categories of `validate_code_chunk` fire on a
given input (syntax heuristics, bracket imbalance, quote imbalance, parse
failure); none fire on blank input, which bypasses the checks. -/
def catFires (syntaxCheck astCheck : String → List String) (code : String) :
    Bool × Bool × Bool × Bool :=
  if pyStrip code = "" then (false, false, false, false)
  else (syntaxCheck code ≠ [], check_bracket_balance code ≠ [],
        check_quote_balance code ≠ [], astCheck code ≠ [])

/-- The total confidence penalty of a set of firing categories. -/
def penaltyOf (fires : Bool × Bool × Bool × Bool) : ℚ :=
  (if fires.1 then 0.3 else 0) + (if fires.2.1 then 0.2 else 0) +
  (if fires.2.2.1 then 0.2 else 0) + (if fires.2.2.2 then 0.3 else 0)

/-- Category-wise inclusion of firing sets. -/
def catLe (a b : Bool × Bool × Bool × Bool) : Prop :=
  (a.1 = true → b.1 = true) ∧ (a.2.1 = true → b.2.1 = true) ∧
  (a.2.2.1 = true → b.2.2.1 = true) ∧ (a.2.2.2 = true → b.2.2.2 = true)

/-- The text `generate_code_sync` accumulates from an event sequence: string
token contents in order, up to the first terminal event or the first
non-string token (which raises). -/
def accText : List StreamEvent → String
  | [] => ""
  | ev :: evs =>
    match ev with
    | .token (.str s) => s ++ accText evs
    | .token _ => ""
    | .done => ""
    | .error _ => ""

/-! ## Proofs — bracket-balance theory lemmas -/

lemma closerOf_cases {o c : Char} (h : closerOf o = some c) :
    (o = '(' ∧ c = ')') ∨ (o = '[' ∧ c = ']') ∨ (o = '\x7b' ∧ c = '\x7d') := by
  unfold closerOf at h
  split_ifs at h with h1 h2 h3
  · exact Or.inl ⟨h1, (Option.some.inj h).symm⟩
  · exact Or.inr (Or.inl ⟨h2, (Option.some.inj h).symm⟩)
  · exact Or.inr (Or.inr ⟨h3, (Option.some.inj h).symm⟩)

lemma isOpenB_of_closer {o c : Char} (h : closerOf o = some c) : isOpenB o = true := by
  simp [isOpenB, h]

lemma isCloseB_of_closer {o c : Char} (h : closerOf o = some c) : isCloseB c = true := by
  rcases closerOf_cases h with ⟨_, rfl⟩ | ⟨_, rfl⟩ | ⟨_, rfl⟩ <;> decide

lemma not_isOpenB_of_isCloseB {c : Char} (h : isCloseB c = true) : isOpenB c = false := by
  simp only [isCloseB, decide_eq_true_eq] at h
  rcases h with rfl | rfl | rfl <;> decide

/-- Non-bracket characters are transparent to the checker. -/
lemma checkBracketAux_filter (cs : List Char) :
    ∀ st, checkBracketAux cs st = checkBracketAux (cs.filter isBracketB) st := by
  induction cs with
  | nil => intro st; rfl
  | cons ch cs ih =>
    intro st
    by_cases ho : isOpenB ch = true
    · have hb : isBracketB ch = true := by simp [isBracketB, ho]
      simp [checkBracketAux, ho, hb, ih]
    · by_cases hc : isCloseB ch = true
      · have hb : isBracketB ch = true := by simp [isBracketB, hc]
        cases st with
        | nil => simp [checkBracketAux, ho, hc, hb]
        | cons o rest =>
          by_cases hm : closerOf o = some ch
          · simp [checkBracketAux, ho, hc, hb, hm, ih]
          · simp [checkBracketAux, ho, hc, hb, hm, ih]
      · have hb : isBracketB ch = false := by simp [isBracketB, ho, hc]
        simp [checkBracketAux, ho, hc, hb, ih]

/-- On bracket-only input, a clean run of the checker is exactly machine
acceptance. -/
lemma check_eq_nil_iff_dyckS (cs : List Char) :
    ∀ st, (∀ c ∈ cs, isBracketB c = true) →
      (checkBracketAux cs st = [] ↔ DyckS cs st) := by
  induction cs with
  | nil =>
    intro st _
    constructor
    · intro h
      by_cases hst : st = []
      · subst hst; exact DyckS.nil
      · simp [checkBracketAux, hst] at h
    · intro h
      cases h
      rfl
  | cons ch cs ih =>
    intro st hmem
    have hch : isBracketB ch = true := hmem ch (by simp)
    have hrest : ∀ c ∈ cs, isBracketB c = true := fun c hc => hmem c (by simp [hc])
    by_cases ho : isOpenB ch = true
    · constructor
      · intro h
        simp only [checkBracketAux, ho, if_true] at h
        exact DyckS.push ho ((ih (ch :: st) hrest).1 h)
      · intro h
        cases h with
        | push h1 h2 =>
          simp only [checkBracketAux, ho, if_true]
          exact (ih _ hrest).2 h2
        | pop hcl h2 =>
          have hfo := not_isOpenB_of_isCloseB (isCloseB_of_closer hcl)
          rw [ho] at hfo; cases hfo
    · have hc : isCloseB ch = true := by
        simp only [isBracketB, Bool.or_eq_true, decide_eq_true_eq] at hch
        rcases hch with h | h
        · exact absurd h ho
        · exact h
      cases st with
      | nil =>
        constructor
        · intro h; simp [checkBracketAux, ho, hc] at h
        · intro h
          cases h with
          | push h1 _ => exact absurd h1 ho
      | cons o rest =>
        by_cases hm : closerOf o = some ch
        · constructor
          · intro h
            simp only [checkBracketAux, ho, hc, if_false, if_true, hm] at h
            exact DyckS.pop hm ((ih rest hrest).1 h)
          · intro h
            cases h with
            | push h1 _ => exact absurd h1 ho
            | pop hcl h2 =>
              simp only [checkBracketAux, ho, hc, if_false, if_true, hm]
              exact (ih rest hrest).2 h2
        · constructor
          · intro h
            simp [checkBracketAux, ho, hc, hm] at h
          · intro h
            cases h with
            | push h1 _ => exact absurd h1 ho
            | pop hcl h2 => exact absurd hcl hm

/-- A Dyck word drives the machine the same way whatever follows it. -/
lemma dyckS_append {l : List Char} (hd : Dyck l) :
    ∀ cs st, DyckS cs st → DyckS (l ++ cs) st := by
  induction hd with
  | nil => intro cs st h; exact h
  | cons hoc hi hr ihi ihr =>
    intro cs st h
    have step : DyckS (_ ++ (_ :: (_ ++ cs))) (_ :: st) :=
      ihi _ _ (DyckS.pop hoc (ihr _ _ h))
    have := DyckS.push (isOpenB_of_closer hoc) step
    simpa using this

lemma parts_of_dyckS {cs st : List Char} (h : DyckS cs st) : Parts cs st := by
  induction h with
  | nil => exact Parts.base Dyck.nil
  | @push o cs' st' ho hd ih =>
    cases ih with
    | @step p o' c cs₂ st₂ hp hoc hparts =>
      cases hparts with
      | base hp₂ =>
        exact Parts.base (Dyck.cons hoc hp hp₂)
      | @step p₂ o₂ c₂ cs₃ st₃ hp₂ hoc₂ hparts₂ =>
        have := Parts.step (Dyck.cons hoc hp hp₂) hoc₂ hparts₂
        simpa using this
  | @pop o c cs' st' hoc hd ih =>
    exact Parts.step (p := []) Dyck.nil hoc ih

lemma dyck_of_parts_nil {cs : List Char} (h : Parts cs []) : Dyck cs := by
  cases h with
  | base hp => exact hp

/-- The checker accepts (reports no issue) exactly the Dyck words, over
bracket-only input. -/
lemma check_eq_nil_iff_dyck (cs : List Char)
    (hmem : ∀ c ∈ cs, isBracketB c = true) :
    checkBracketAux cs [] = [] ↔ Dyck cs := by
  rw [check_eq_nil_iff_dyckS cs [] hmem]
  constructor
  · intro h; exact dyck_of_parts_nil (parts_of_dyckS h)
  · intro h
    have := dyckS_append h [] [] DyckS.nil
    simpa using this

/-! ### `runStack` bookkeeping lemmas -/

lemma runStack_append (xs : List Char) :
    ∀ ys st, runStack (xs ++ ys) st = (runStack xs st).bind (runStack ys) := by
  induction xs with
  | nil => intro ys st; rfl
  | cons ch xs ih =>
    intro ys st
    by_cases ho : isOpenB ch = true
    · simp [runStack, ho, ih]
    · by_cases hc : isCloseB ch = true
      · cases st with
        | nil => simp [runStack, ho, hc]
        | cons o rest =>
          by_cases hm : closerOf o = some ch
          · simp [runStack, ho, hc, hm, ih]
          · simp [runStack, ho, hc, hm]
      · simp [runStack, ho, hc, ih]

/-- Closing an all-`'('` stack with that many `')'` empties it cleanly. -/
lemma runStack_closes (st : List Char) (h : ∀ c ∈ st, c = '(') :
    runStack (List.replicate st.length ')') st = some [] := by
  induction st with
  | nil => rfl
  | cons o rest ih =>
    have ho : o = '(' := h o (by simp)
    subst ho
    have : runStack (List.replicate rest.length ')') rest = some [] :=
      ih (fun c hc => h c (by simp [hc]))
    simpa [List.replicate_succ, runStack] using this

/-- When the scan is clean, the checker reports exactly the leftover-stack
issue (or nothing). -/
lemma checkAux_of_runStack (cs : List Char) :
    ∀ st st', runStack cs st = some st' →
      checkBracketAux cs st = if st' = [] then [] else [unclosedMsg st'.length] := by
  induction cs with
  | nil =>
    intro st st' h
    simp only [runStack, Option.some.injEq] at h
    subst h
    by_cases hst : st = [] <;> simp [checkBracketAux, hst]
  | cons ch cs ih =>
    intro st st' h
    by_cases ho : isOpenB ch = true
    · simp only [runStack, ho, if_true] at h
      simpa [checkBracketAux, ho] using ih _ _ h
    · by_cases hc : isCloseB ch = true
      · cases st with
        | nil => simp [runStack, ho, hc] at h
        | cons o rest =>
          by_cases hm : closerOf o = some ch
          · simp only [runStack, ho, hc, hm, if_true, if_false] at h
            simpa [checkBracketAux, ho, hc, hm] using ih _ _ h
          · simp [runStack, ho, hc, hm] at h
      · simp only [runStack, ho, hc, if_false] at h
        simpa [checkBracketAux, ho, hc] using ih _ _ h

/-- Bracket bookkeeping of a clean scan: `'('`-count plus pending `'('`s is
preserved against `')'`-count. -/
lemma runStack_count (cs : List Char) :
    ∀ st st', runStack cs st = some st' →
      countChar st '(' + countChar cs '(' = countChar st' '(' + countChar cs ')' := by
  induction cs with
  | nil =>
    intro st st' h
    simp only [runStack, Option.some.injEq] at h
    subst h
    simp [countChar]
  | cons ch cs ih =>
    intro st st' h
    by_cases ho : isOpenB ch = true
    · simp only [runStack, ho, if_true] at h
      have hcnt := ih _ _ h
      by_cases hp : ch = '('
      · subst hp
        simp only [countChar, List.countP_cons] at hcnt ⊢
        simp at hcnt ⊢
        omega
      · have hnc : ch ≠ ')' := by
          intro hcc; subst hcc; simp [isOpenB, closerOf] at ho
        simp only [countChar, List.countP_cons] at hcnt ⊢
        simp [hp, hnc] at hcnt ⊢
        omega
    · by_cases hc : isCloseB ch = true
      · cases st with
        | nil => simp [runStack, ho, hc] at h
        | cons o rest =>
          by_cases hm : closerOf o = some ch
          · simp only [runStack, ho, hc, hm, if_true, if_false] at h
            have hcnt := ih _ _ h
            rcases closerOf_cases hm with ⟨rfl, rfl⟩ | ⟨rfl, rfl⟩ | ⟨rfl, rfl⟩ <;>
              · simp only [countChar, List.countP_cons] at hcnt ⊢
                simp at hcnt ⊢
                omega
          · simp [runStack, ho, hc, hm] at h
      · have hno : ch ≠ '(' := by
          intro hcc; subst hcc; simp [isOpenB, closerOf] at ho
        have hnc : ch ≠ ')' := by
          intro hcc; subst hcc; simp [isCloseB] at hc
        simp only [runStack, ho, hc, if_false] at h
        have hcnt := ih _ _ h
        simp only [countChar, List.countP_cons] at hcnt ⊢
        simp [hno, hnc] at hcnt ⊢
        omega


/-! ## Supporting lemmas for the streaming claims -/

/-- `_process_stream_line` only ever returns `done` or `token` events. -/
lemma process_line_event (jl : String → Option JVal) (lt : String) (ev : StreamEvent)
    (h : process_stream_line jl lt = .ok (some ev)) :
    ev = .done ∨ ∃ c, ev = .token c := by
  unfold process_stream_line at h
  repeat' split at h
  all_goals try cases h
  all_goals
    first
      | (exact Or.inl rfl)
      | (exact Or.inr ⟨_, rfl⟩)

lemma chunkLines_tokens (jl : String → Option JVal) :
    ∀ ls, (processChunkLines jl ls).2 = false →
      (processChunkLines jl ls).1.all isTokenEv = true := by
  intro ls
  induction ls with
  | nil => intro _; rfl
  | cons line lines ih =>
    intro h
    by_cases hg : pyStrip line ≠ "" ∧ pyStrip line ≠ "data: "
    · rcases hp : process_stream_line jl (pyStrip line) with e | o
      · simp [processChunkLines, hg.1, hg.2, hp]
      · rcases o with _ | ev
        · simp only [processChunkLines, hp] at h ⊢
          rw [if_pos hg] at h ⊢
          exact ih h
        · rcases process_line_event jl _ _ hp with rfl | ⟨c, rfl⟩
          · simp only [processChunkLines, hp] at h
            rw [if_pos hg] at h
            cases h
          · simp only [processChunkLines, hp] at h ⊢
            rw [if_pos hg] at h ⊢
            simp only [List.all_cons, Bool.and_eq_true] at h ⊢
            exact ⟨rfl, ih h⟩
    · simp only [processChunkLines] at h ⊢
      rw [if_neg hg] at h ⊢
      exact ih h

lemma chunkLines_done (jl : String → Option JVal) :
    ∀ ls, (processChunkLines jl ls).2 = true →
      ∃ ts, (processChunkLines jl ls).1 = ts ++ [StreamEvent.done] ∧
        ts.all isTokenEv = true := by
  intro ls
  induction ls with
  | nil => intro h; simp [processChunkLines] at h
  | cons line lines ih =>
    intro h
    by_cases hg : pyStrip line ≠ "" ∧ pyStrip line ≠ "data: "
    · rcases hp : process_stream_line jl (pyStrip line) with e | o
      · simp only [processChunkLines, hp] at h
        rw [if_pos hg] at h
        cases h
      · rcases o with _ | ev
        · simp only [processChunkLines, hp] at h ⊢
          rw [if_pos hg] at h ⊢
          exact ih h
        · rcases process_line_event jl _ _ hp with rfl | ⟨c, rfl⟩
          · refine ⟨[], ?_, rfl⟩
            simp only [processChunkLines, hp]
            rw [if_pos hg]
            rfl
          · simp only [processChunkLines, hp] at h ⊢
            rw [if_pos hg] at h ⊢
            rcases ih h with ⟨ts, hts, hall⟩
            refine ⟨StreamEvent.token c :: ts, ?_, ?_⟩
            · simp [hts]
            · simp [List.all_cons, isTokenEv, hall]
    · simp only [processChunkLines] at h ⊢
      rw [if_neg hg] at h ⊢
      exact ih h

lemma chunks_tokens (jl : String → Option JVal) :
    ∀ cs, (processChunks jl cs).2 = false →
      (processChunks jl cs).1.all isTokenEv = true := by
  intro cs
  induction cs with
  | nil => intro _; rfl
  | cons c cs ih =>
    intro h
    rcases c with e | text
    · simp only [processChunks] at h ⊢
      exact ih h
    · by_cases he : text = ""
      · simp only [processChunks] at h ⊢
        rw [if_pos he] at h ⊢
        exact ih h
      · simp only [processChunks] at h ⊢
        rw [if_neg he] at h ⊢
        by_cases hr : (processChunkLines jl (pySplitNL text)).2 = true
        · rw [if_pos hr] at h
          rw [hr] at h
          cases h
        · rw [Bool.not_eq_true] at hr
          rw [if_neg (by simp [hr])] at h ⊢
          simp only [List.all_append, Bool.and_eq_true]
          exact ⟨chunkLines_tokens jl _ hr, ih h⟩

lemma chunks_done (jl : String → Option JVal) :
    ∀ cs, (processChunks jl cs).2 = true →
      ∃ ts, (processChunks jl cs).1 = ts ++ [StreamEvent.done] ∧
        ts.all isTokenEv = true := by
  intro cs
  induction cs with
  | nil => intro h; simp [processChunks] at h
  | cons c cs ih =>
    intro h
    rcases c with e | text
    · simp only [processChunks] at h ⊢
      exact ih h
    · by_cases he : text = ""
      · simp only [processChunks] at h ⊢
        rw [if_pos he] at h ⊢
        exact ih h
      · simp only [processChunks] at h ⊢
        rw [if_neg he] at h ⊢
        by_cases hr : (processChunkLines jl (pySplitNL text)).2 = true
        · rw [if_pos hr] at h ⊢
          exact chunkLines_done jl _ hr
        · rw [Bool.not_eq_true] at hr
          rw [if_neg (by simp [hr])] at h ⊢
          rcases ih h with ⟨ts, hts, hall⟩
          refine ⟨(processChunkLines jl (pySplitNL text)).1 ++ ts, ?_, ?_⟩
          · simp [hts]
          · simp only [List.all_append, Bool.and_eq_true]
            exact ⟨chunkLines_tokens jl _ hr, hall⟩


/-- The inline fallback is dead code whenever a fenced block exists, so
`parse_response` does not depend on it there. -/
lemma parse_response_indep (fb fb' : String → List String) (text : String)
    (h : fencedBlocks text ≠ []) :
    parse_response fb text = parse_response fb' text := by
  simp only [parse_response, extract_code_blocks, if_neg h]

/-! ## C1 — connect/backoff -/

/-- C1 counterexample: against an always-failing backend with the retry cap
at 3, `connect` performs backoff sleeps of 2 and 4 seconds only — not the
claimed 2, 4 and 8 — before raising `ConnectionError`: the third failed
attempt raises immediately, with no further sleep. -/
theorem C1_counterexample :
    connect 3 (fun _ => false) 0 = ([2, 4], none) ∧ ([2, 4] : List Nat) ≠ [2, 4, 8] :=
  ⟨rfl, by decide⟩

/-- C1 (amended): with the cap at 3 and the counter starting at 0, three
consecutive probe failures sleep 2 then 4 seconds (delay `2 ^ attempt` after
the first and second failed attempts) and then raise `ConnectionError`
immediately after the third failure; any successful probe returns with the
retry counter reset to zero. -/
theorem C1_connect_backoff (probe : Nat → Bool) :
    (probe 0 = false → probe 1 = false → probe 2 = false →
      connect 3 probe 0 = ([2, 4], none)) ∧
    (∀ r, probe r = true → connect 3 probe r = ([], some 0)) := by
  constructor
  · intro h0 h1 h2
    simp [connect, connectAux, h0, h1, h2]
  · intro r hr
    simp [connect, connectAux, hr]

/-- C1 witness. -/
theorem C1_witness :
    connect 3 (fun _ => false) 0 = ([2, 4], none) ∧
    connect 3 (fun _ => true) 0 = ([], some 0) :=
  ⟨(C1_connect_backoff (fun _ => false)).1 rfl rfl rfl,
   (C1_connect_backoff (fun _ => true)).2 0 rfl⟩

/-! ## C2 — parse_response on a single fenced region -/

/-- C2 counterexample: on the spec's own example the `code` field is not the
fenced region's trimmed content `"print(1)"`.  The `python`-tagged fence is
captured by both fence patterns — once as `print(1)` and once (by the generic
pattern) as `python\nprint(1)` — and the two distinct blocks are merged with
a blank-line separator. -/
theorem C2_counterexample :
    (parse_response (fun _ => [])
        "Explanation: does X\n```python\nprint(1)\n```").code ≠ "print(1)" := by
  have h : (parse_response (fun _ => [])
      "Explanation: does X\n```python\nprint(1)\n```").code
      = "print(1)\n\npython\nprint(1)" := rfl
  rw [h]
  decide

/-- C2 (amended): parsing `"Explanation: does X\n```python\nprint(1)\n```"`
yields explanation `"Explanation: does X"`, but the code field is
`"print(1)\n\npython\nprint(1)"`: both fence patterns capture the single
python-tagged region (its trimmed content, and the same text still prefixed
with the `python` tag), and the two blocks are merged with a blank line.  The
metadata accordingly counts two code blocks.  The inline fallback scan is not
consulted, so the result is the same for every fallback. -/
theorem C2_parse_example (fb : String → List String) :
    (parse_response fb "Explanation: does X\n```python\nprint(1)\n```").explanation
        = "Explanation: does X" ∧
    (parse_response fb "Explanation: does X\n```python\nprint(1)\n```").code
        = "print(1)\n\npython\nprint(1)" ∧
    (parse_response fb "Explanation: does X\n```python\nprint(1)\n```").metadata.map
        (fun m => (m.code_blocks_found, m.has_explanation)) = some (2, true) := by
  rw [parse_response_indep fb (fun _ => []) _ (by decide)]
  exact ⟨rfl, rfl, rfl⟩

/-! ## C3 — stream-line classification -/

/-- C3: classification of received stream lines.  `data: [DONE]` and a
payload typed `done` yield the done event; a payload with non-empty `text`
yields a token event carrying exactly that text; an empty line, a line
without the `data: ` prefix, an unparseable payload, and a payload with
neither a done mark nor non-empty text all yield no event; a payload that is
valid JSON but not a dict raises (`AttributeError` from `.get`), which the
chunk-level handler catches, so it too yields no event and the stream is not
aborted (cf. C4); a chunk whose byte decoding fails is skipped without
aborting the stream. -/
theorem C3_process_stream_line (jl : String → Option JVal) :
    (process_stream_line jl "data: [DONE]" = .ok (some .done)) ∧
    (∀ lt fields, pyStartsWith lt "data: " = true → lt ≠ "data: [DONE]" →
      jl (strDrop lt 6) = some (.obj fields) →
      isDoneType (jGet fields "type") = true →
      process_stream_line jl lt = .ok (some .done)) ∧
    (∀ lt fields t, pyStartsWith lt "data: " = true → lt ≠ "data: [DONE]" →
      jl (strDrop lt 6) = some (.obj fields) →
      isDoneType (jGet fields "type") = false →
      jGet fields "text" = some (.str t) → t ≠ "" →
      process_stream_line jl lt = .ok (some (.token (.str t)))) ∧
    (∀ lt, lt = "" ∨ pyStartsWith lt "data: " = false ∨
        (lt ≠ "data: [DONE]" ∧ jl (strDrop lt 6) = none) →
      process_stream_line jl lt = .ok none) ∧
    (∀ lt fields, pyStartsWith lt "data: " = true → lt ≠ "data: [DONE]" →
      jl (strDrop lt 6) = some (.obj fields) →
      isDoneType (jGet fields "type") = false →
      (jGet fields "text" = none ∨ (∃ tv, jGet fields "text" = some tv ∧ jTruthy tv = false)) →
      process_stream_line jl lt = .ok none) ∧
    (∀ lt v, pyStartsWith lt "data: " = true → lt ≠ "data: [DONE]" →
      jl (strDrop lt 6) = some v → (∀ fields, v ≠ .obj fields) →
      process_stream_line jl lt = .error ()) ∧
    (∀ cs e, processChunks jl (Except.error e :: cs) = processChunks jl cs) := by
  have hne : ∀ lt : String, pyStartsWith lt "data: " = true → lt ≠ "" := by
    intro lt hs he
    subst he
    exact absurd hs (by decide)
  refine ⟨rfl, ?_, ?_, ?_, ?_, ?_, ?_⟩
  · intro lt fields hs hd hj ht
    unfold process_stream_line
    rw [if_neg (hne lt hs), if_neg (by simp [hs]), if_neg hd, hj]
    simp [ht]
  · intro lt fields t hs hd hj hnd htx htne
    unfold process_stream_line
    rw [if_neg (hne lt hs), if_neg (by simp [hs]), if_neg hd, hj]
    simp [hnd, htx, jTruthy, htne]
  · intro lt h
    rcases h with rfl | h | ⟨hd, hj⟩
    · rfl
    · unfold process_stream_line
      by_cases he : lt = ""
      · rw [if_pos he]
      · rw [if_neg he, if_pos (by simp [h])]
    · by_cases hs : pyStartsWith lt "data: " = true
      · unfold process_stream_line
        rw [if_neg (hne lt hs), if_neg (by simp [hs]), if_neg hd, hj]
      · unfold process_stream_line
        by_cases he : lt = ""
        · rw [if_pos he]
        · rw [if_neg he, if_pos hs]
  · intro lt fields hs hd hj hnd hcase
    unfold process_stream_line
    rw [if_neg (hne lt hs), if_neg (by simp [hs]), if_neg hd, hj]
    rcases hcase with htn | ⟨tv, htv, hfalse⟩
    · simp [hnd, htn]
    · simp [hnd, htv, hfalse]
  · intro lt v hs hd hj hno
    unfold process_stream_line
    rw [if_neg (hne lt hs), if_neg (by simp [hs]), if_neg hd, hj]
    rcases v with _ | b | q | t | el | fl
    · rfl
    · rfl
    · rfl
    · rfl
    · rfl
    · exact absurd rfl (hno fl)
  · intro cs e
    rfl


/-- C3 witness. -/
theorem C3_witness :
    process_stream_line (fun _ => none) "data: [DONE]" = .ok (some .done) ∧
    process_stream_line
        (fun s => if s = "payload" then some (.obj [("text", .str "foo")]) else none)
        "data: payload" = .ok (some (.token (.str "foo"))) ∧
    process_stream_line (fun _ => none) "hello" = .ok none := by
  refine ⟨(C3_process_stream_line (fun _ => none)).1, ?_, ?_⟩
  · exact (C3_process_stream_line _).2.2.1 "data: payload" [("text", JVal.str "foo")] "foo"
      (by decide) (by decide) rfl rfl rfl (by decide)
  · exact (C3_process_stream_line (fun _ => none)).2.2.2.1 "hello"
      (Or.inr (Or.inl (by decide)))

/-! ## C4 — one terminal event, tokens before it -/

/-- C4: every event sequence the streaming generator produces is finite (a
`List`), and consists of token events followed by exactly one terminal event
— a single `done` on success or a single `error` on failure — as its last
element. -/
theorem C4_stream_terminal (jl : String → Option JVal) (resp : StreamResponse) :
    ∃ ts t, generate_code_streaming jl resp = ts ++ [t] ∧
      ts.all isTokenEv = true ∧ isTerminalEv t = true := by
  unfold generate_code_streaming
  by_cases hc : resp.connectOk = true
  · rw [if_neg (by simp [hc])]
    by_cases hs : resp.status = 200
    · rw [if_neg (by simp [hs])]
      by_cases hr : (processChunks jl resp.chunks).2 = true
      · rw [if_pos hr]
        rcases chunks_done jl _ hr with ⟨ts, hts, hall⟩
        exact ⟨ts, .done, hts, hall, rfl⟩
      · rw [Bool.not_eq_true] at hr
        rw [if_neg (by simp [hr])]
        rcases hio : resp.ioError with _ | m
        · exact ⟨(processChunks jl resp.chunks).1, .done, rfl, chunks_tokens jl _ hr, rfl⟩
        · exact ⟨(processChunks jl resp.chunks).1, .error _, rfl, chunks_tokens jl _ hr, rfl⟩
    · rw [if_pos hs]
      exact ⟨[], .error _, rfl, rfl, rfl⟩
  · rw [if_pos hc]
    exact ⟨[], .error _, rfl, rfl, rfl⟩


/-! ## C5 — bracket balance iff properly nested -/

/-- C5: the bracket-balance check reports no issue iff the string's bracket
characters form a properly nested (Dyck) word — so it reports at least one
issue iff they do not (a closer on an empty stack, a closer mismatching the
most recent opener, or leftover openers); and whenever a clean scan leaves
`k > 0` unmatched openers, the single reported issue carries that count. -/
theorem C5_bracket_balance :
    (∀ s : String, check_bracket_balance s = [] ↔ Dyck (s.data.filter isBracketB)) ∧
    (∀ (s : String) (st : List Char), runStack s.data [] = some st → st ≠ [] →
      check_bracket_balance s = [unclosedMsg st.length]) := by
  constructor
  · intro s
    rw [check_bracket_balance, checkBracketAux_filter]
    exact check_eq_nil_iff_dyck _ (fun c hc => (List.mem_filter.mp hc).2)
  · intro s st h hne
    rw [check_bracket_balance, checkAux_of_runStack _ _ _ h, if_neg hne]

/-- C5 witness. -/
theorem C5_witness :
    (check_bracket_balance "a(b[c]d)e" = [] ∧ Dyck ("a(b[c]d)e".data.filter isBracketB)) ∧
    check_bracket_balance "(((" = [unclosedMsg 3] := by
  refine ⟨⟨by decide, (C5_bracket_balance.1 "a(b[c]d)e").mp (by decide)⟩, ?_⟩
  exact C5_bracket_balance.2 "(((" ['(', '(', '('] (by decide) (by decide)

/-! ## C6 — validate_code_chunk aggregation -/

lemma penaltyOf_nonneg (a : Bool × Bool × Bool × Bool) : 0 ≤ penaltyOf a := by
  unfold penaltyOf
  rcases a with ⟨a1, a2, a3, a4⟩
  cases a1 <;> cases a2 <;> cases a3 <;> cases a4 <;> norm_num

lemma penaltyOf_mono {a b : Bool × Bool × Bool × Bool} (h : catLe a b) :
    penaltyOf a ≤ penaltyOf b := by
  rcases a with ⟨a1, a2, a3, a4⟩
  rcases b with ⟨b1, b2, b3, b4⟩
  rcases h with ⟨h1, h2, h3, h4⟩
  unfold penaltyOf
  cases a1 <;> cases a2 <;> cases a3 <;> cases a4 <;>
    cases b1 <;> cases b2 <;> cases b3 <;> cases b4 <;> simp_all <;> norm_num

/-- The confidence of `validate_code_chunk` is `max 0 (1 - penalty)`. -/
lemma validate_confidence (sc ac : String → List String) (code : String) :
    (validate_code_chunk sc ac code).confidence
      = max 0 (1 - penaltyOf (catFires sc ac code)) := by
  unfold validate_code_chunk catFires penaltyOf
  by_cases h : pyStrip code = ""
  · simp only [h, if_pos, if_true]
    norm_num
  · simp only [h, if_neg, if_false]
    by_cases h1 : sc code = [] <;>
      by_cases h2 : check_bracket_balance code = [] <;>
        by_cases h3 : check_quote_balance code = [] <;>
          by_cases h4 : ac code = [] <;>
            simp [h1, h2, h3, h4] <;> norm_num

/-- C6: `valid` is exactly emptiness of `issues`; the confidence equals
`max 0 (1 − the summed category penalties 0.3/0.2/0.2/0.3)` and always lies in
`[0,1]`; the empty input is valid with no issues and confidence exactly 1;
and the confidence is antitone in the set of firing categories. -/
theorem C6_validate (sc ac : String → List String) (code : String) :
    ((validate_code_chunk sc ac code).valid = true ↔
      (validate_code_chunk sc ac code).issues = []) ∧
    0 ≤ (validate_code_chunk sc ac code).confidence ∧
    (validate_code_chunk sc ac code).confidence ≤ 1 ∧
    (validate_code_chunk sc ac code).confidence
      = max 0 (1 - penaltyOf (catFires sc ac code)) ∧
    (code = "" → validate_code_chunk sc ac code
      = { valid := true, issues := [], confidence := 1,
          code_length := none, line_count := none }) ∧
    (∀ (sc' ac' : String → List String) (code' : String),
      catLe (catFires sc ac code) (catFires sc' ac' code') →
      (validate_code_chunk sc' ac' code').confidence
        ≤ (validate_code_chunk sc ac code).confidence) := by
  refine ⟨?_, ?_, ?_, validate_confidence sc ac code, ?_, ?_⟩
  · unfold validate_code_chunk
    by_cases h : pyStrip code = ""
    · simp [h]
    · simp [h, List.length_eq_zero]
  · rw [validate_confidence]
    exact le_max_left 0 _
  · rw [validate_confidence]
    refine max_le (by norm_num) ?_
    have := penaltyOf_nonneg (catFires sc ac code)
    linarith
  · intro h
    subst h
    rfl
  · intro sc' ac' code' hle
    rw [validate_confidence, validate_confidence]
    have := penaltyOf_mono hle
    refine max_le_max le_rfl ?_
    linarith

/-- C6 witness. -/
theorem C6_witness :
    validate_code_chunk (fun _ => []) (fun _ => []) ""
      = { valid := true, issues := [], confidence := 1,
          code_length := none, line_count := none } ∧
    (validate_code_chunk (fun _ => []) (fun _ => []) "x('").confidence
      ≤ (validate_code_chunk (fun _ => []) (fun _ => []) "x(").confidence := by
  constructor
  · exact (C6_validate (fun _ => []) (fun _ => []) "").2.2.2.2.1 rfl
  · exact (C6_validate (fun _ => []) (fun _ => []) "x(").2.2.2.2.2
      (fun _ => []) (fun _ => []) "x('" ⟨by decide, by decide, by decide, by decide⟩

/-! ## C7 — suggest_fix -/

/-- C7 counterexample: repairing `"print('a"` (whose issues are one unmatched
opening parenthesis and odd single-quote parity) appends `')'` and then `"'"`,
and the repaired string has no quote issue left: the quote category strictly
decreased from one issue to none, refuting "never decreases the count of any
other issue category". -/
theorem C7_counterexample :
    suggest_fix "print('a"
        (validate_code_chunk (fun _ => []) (fun _ => []) "print('a").issues
      = "print('a)'" ∧
    check_quote_balance "print('a" = ["홀수 개의 단일 따옴표"] ∧
    check_quote_balance "print('a)'" = [] := by
  exact ⟨by decide, by decide, by decide⟩


lemma strData_append (s t : String) : (s ++ t).data = s.data ++ t.data := rfl

lemma isPre_append (p l r : List Char) (h : isPre p l = true) :
    isPre p (l ++ r) = true := by
  induction p generalizing l with
  | nil => rfl
  | cons a ps ih =>
    cases l with
    | nil => cases h
    | cons c cs =>
      simp only [isPre, Bool.and_eq_true, decide_eq_true_eq] at h
      simp only [List.cons_append, isPre, Bool.and_eq_true, decide_eq_true_eq]
      exact ⟨h.1, ih cs h.2⟩

lemma containsSub_of_isPre (pat l : List Char) (h : isPre pat l = true) :
    containsSub pat l = true := by
  cases l with
  | nil => simpa [containsSub] using h
  | cons c cs => simp [containsSub, h]

/-- Every unclosed-bracket issue string contains the keyword `suggest_fix`
matches on. -/
lemma contains_unclosed (k : Nat) :
    strContains (unclosedMsg k) "닫히지 않은 괄호" = true := by
  unfold strContains
  have h : (unclosedMsg k).data
      = "닫히지 않은 괄호: ".data ++ (toString k ++ "개").data := rfl
  rw [h]
  exact containsSub_of_isPre _ _ (isPre_append _ _ _ (by decide))

lemma mem_dropWhile {p : Char → Bool} {c : Char} (hcp : p c = false) :
    ∀ {cs : List Char}, c ∈ cs → c ∈ cs.dropWhile p := by
  intro cs hc
  induction cs with
  | nil => cases hc
  | cons a t ih =>
    by_cases hpa : p a = true
    · rw [List.dropWhile_cons_of_pos hpa]
      rcases List.mem_cons.mp hc with rfl | hct
      · rw [hpa] at hcp; cases hcp
      · exact ih hct
    · rw [List.dropWhile_cons_of_neg (by simpa using hpa)]
      exact hc

lemma stripList_eq_nil (cs : List Char) (h : stripList cs = []) :
    ∀ c ∈ cs, pyWs c = true := by
  intro c hc
  by_contra hn
  rw [Bool.not_eq_true] at hn
  have h1 : List.dropWhile pyWs (List.dropWhile pyWs cs).reverse = [] := by
    have := congrArg List.reverse h
    simpa [stripList] using this
  have hmem : c ∈ (List.dropWhile pyWs cs).reverse := by
    simpa using mem_dropWhile hn hc
  have hws := List.dropWhile_eq_nil_iff.mp h1 c hmem
  rw [hn] at hws
  cases hws

lemma suggest_fix_unclosed (code : String) (k : Nat)
    (hcnt : countChar code.data ')' + k = countChar code.data '(') (hk : k ≠ 0) :
    suggest_fix code [unclosedMsg k] = code ++ (⟨List.replicate k ')'⟩ : String) := by
  unfold suggest_fix
  simp only [List.foldl_cons, List.foldl_nil, contains_unclosed k, if_true]
  rw [if_pos (by omega)]
  have harith : countChar code.data '(' - countChar code.data ')' = k := by omega
  rw [harith]

/-- C7 (amended): when the bracket scan of `code` is clean with `k > 0`
leftover openers that are all `'('`, and the quote/syntax/ast categories are
silent, the validator reports exactly the unclosed-parenthesis issue, and
`suggest_fix` appends exactly `k` closing parentheses — the minimal number —
after which the bracket check reports no issue (the unmatched-opener count is
reduced to zero).  (The repair can also *decrease* other categories — it
appends a quote when quote parity is odd, clearing that issue — which is what
refutes the original claim; see the counterexample.) -/
theorem C7_suggest_fix (sc ac : String → List String) (code : String) (st : List Char)
    (hrun : runStack code.data [] = some st) (hne : st ≠ [])
    (hall : ∀ c ∈ st, c = '(')
    (hq : check_quote_balance code = []) (hsc : sc code = []) (hac : ac code = []) :
    (validate_code_chunk sc ac code).issues = [unclosedMsg st.length] ∧
    suggest_fix code (validate_code_chunk sc ac code).issues
      = code ++ (⟨List.replicate st.length ')'⟩ : String) ∧
    check_bracket_balance
      (code ++ (⟨List.replicate st.length ')'⟩ : String)) = [] := by
  have hstall : countChar st '(' = st.length := by
    unfold countChar
    rw [List.countP_eq_length]
    intro a ha
    simp [hall a ha]
  have hcnt0 := runStack_count code.data [] st hrun
  have hcnt : countChar code.data ')' + st.length = countChar code.data '(' := by
    simp only [countChar, List.countP_nil] at hcnt0
    unfold countChar at hstall ⊢
    omega
  have hk : st.length ≠ 0 := by
    intro h0
    exact hne (List.length_eq_zero.mp h0)
  have hopen : '(' ∈ code.data := by
    have hpos : 0 < List.countP (fun c => decide (c = '(')) code.data := by
      have := countChar code.data '('
      unfold countChar at hcnt
      omega
    rcases List.countP_pos_iff.mp hpos with ⟨a, ha, hap⟩
    simp only [decide_eq_true_eq] at hap
    exact hap ▸ ha
  have hsne : pyStrip code ≠ "" := by
    intro h0
    have hdata : stripList code.data = [] := congrArg String.data h0
    exact absurd (stripList_eq_nil code.data hdata '(' hopen) (by decide)
  have hb : check_bracket_balance code = [unclosedMsg st.length] := by
    rw [check_bracket_balance, checkAux_of_runStack _ _ _ hrun, if_neg hne]
  have hissues : (validate_code_chunk sc ac code).issues = [unclosedMsg st.length] := by
    unfold validate_code_chunk
    rw [if_neg hsne]
    simp [hsc, hq, hac, hb]
  refine ⟨hissues, ?_, ?_⟩
  · rw [hissues]
    exact suggest_fix_unclosed code st.length hcnt hk
  · have hclose : runStack (code ++ (⟨List.replicate st.length ')'⟩ : String)).data []
        = some [] := by
      rw [strData_append, runStack_append, hrun]
      exact runStack_closes st hall
    rw [check_bracket_balance, checkAux_of_runStack _ _ _ hclose]
    simp

/-- C7 witness: the spec's own example, repaired to `"print(1)"`. -/
theorem C7_witness :
    (validate_code_chunk (fun _ => []) (fun _ => []) "print(1").issues
      = [unclosedMsg 1] ∧
    suggest_fix "print(1"
        (validate_code_chunk (fun _ => []) (fun _ => []) "print(1").issues
      = "print(1)" ∧
    check_bracket_balance "print(1)" = [] := by
  have h := C7_suggest_fix (fun _ => []) (fun _ => []) "print(1" ['(']
    (by decide) (by decide) (by decide) (by decide) rfl rfl
  refine ⟨h.1, ?_, by decide⟩
  rw [h.2.1]
  decide


/-! ## C8 — the layered parameter rule -/

/-- C8: the parameters `_prepare_vllm_payload` computes coincide, for every
preference set and complexity tier, with the spec's layered rule (baseline
0.3/400/0.8; beginner ×1.5 and expert ×0.8 on tokens; concise ×0.8 floor 0.1
and detailed ×1.2 ceiling 0.4 on temperature; enhanced ×0.9 floor 0.7 and
minimal ×1.1 ceiling 0.95 on top_p; the complexity overlay applied last,
with medium ×1.3/0.5, ×1.5, ×1.1/0.9 and complex ×1.6/0.7, ×2.0, ×1.2/0.95,
and no overlay for simple). -/
theorem C8_prepare_params (prefs : Option Prefs) (tier : Complexity) :
    prepare_vllm_params prefs tier = prepare_vllm_params_spec prefs tier := by
  cases prefs <;> cases tier <;> rfl

/-! ## C9 — the streaming payload -/

/-- C9 counterexample: the decoding parameters are not taken "directly from
the request with fallbacks only when unset": a request that explicitly sets
`temperature = 0` (and `max_tokens = 0`, `top_p = 0`) still gets the
fallbacks, because Python's `or` treats any falsy value as unset. -/
theorem C9_counterexample :
    (stream_payload (fun _ => 0)
        ⟨"p", none, .code_generation, some 0, some 0, some 0⟩ "u" none).temperature
      = 0.7 ∧
    (⟨"p", none, .code_generation, some 0, some 0, some 0⟩ :
        CodeGenerationRequest).temperature = some 0 ∧
    (0.7 : ℚ) ≠ 0 := by
  refine ⟨?_, rfl, by norm_num⟩
  simp [stream_payload, pyOrQ]

/-- C9 (amended): the streaming payload's decoding parameters come from the
request under Python truthiness — `max_tokens or 512`, `temperature or 0.7`,
`top_p or 0.9`, so an unset *or zero* value falls back — preferences are
forwarded only as `user_select_options`, and the layered scaling of
`_prepare_vllm_payload` is not applied: the other payload fields do not
depend on the preferences at all (e.g. a `beginner` skill level leaves the
streaming token budget at the 512 fallback, while `_prepare_vllm_payload`
would compute 600 even at the `simple` tier). -/
theorem C9_stream_payload (hash : String → ℤ) (request : CodeGenerationRequest)
    (user_id : String) (prefs prefs' : Option Prefs) :
    (stream_payload hash request user_id prefs).max_tokens
        = pyOrI request.max_tokens 512 ∧
    (stream_payload hash request user_id prefs).temperature
        = pyOrQ request.temperature 0.7 ∧
    (stream_payload hash request user_id prefs).top_p
        = pyOrQ request.top_p 0.9 ∧
    (stream_payload hash request user_id prefs).user_select_options
        = prefs.getD emptyPrefs ∧
    ((stream_payload hash request user_id prefs).user_id
        = (stream_payload hash request user_id prefs').user_id ∧
      (stream_payload hash request user_id prefs).prompt
        = (stream_payload hash request user_id prefs').prompt ∧
      (stream_payload hash request user_id prefs).model_type
        = (stream_payload hash request user_id prefs').model_type ∧
      (stream_payload hash request user_id prefs).max_tokens
        = (stream_payload hash request user_id prefs').max_tokens ∧
      (stream_payload hash request user_id prefs).temperature
        = (stream_payload hash request user_id prefs').temperature ∧
      (stream_payload hash request user_id prefs).top_p
        = (stream_payload hash request user_id prefs').top_p) ∧
    ((stream_payload hash ⟨"p", none, .code_generation, none, none, none⟩ user_id
          (some ⟨some "beginner", none, none⟩)).max_tokens = 512 ∧
      (prepare_vllm_params (some ⟨some "beginner", none, none⟩) .simple).max_tokens
        = 600) := by
  refine ⟨rfl, rfl, rfl, rfl, ⟨rfl, rfl, rfl, rfl, rfl, rfl⟩, rfl, ?_⟩
  have h15 : ((400 : ℤ) : ℚ) * 1.5 = 600 := by norm_num
  have hstep : (prepare_vllm_params (some ⟨some "beginner", none, none⟩) .simple).max_tokens
      = pyTrunc (((400 : ℤ) : ℚ) * 1.5) := rfl
  rw [hstep, h15]
  rfl

/-! ## C10 — blank input, missing metadata, sync failure -/

lemma syncAux_empty (fb : String → List String) :
    ∀ (evs : List StreamEvent) (acc : String), acc ++ accText evs = "" →
      (syncFromEventsAux fb acc evs).success = false := by
  intro evs
  induction evs with
  | nil =>
    intro acc h
    simp only [accText, String.append_empty] at h
    subst h
    rfl
  | cons ev evs ih =>
    intro acc h
    rcases ev with content | _ | msg
    · rcases content with _ | b | q | str | elems | fields
      · rfl
      · rfl
      · rfl
      · simp only [accText, ← String.append_assoc] at h
        exact ih (acc ++ str) h
      · rfl
      · rfl
    · simp only [accText, String.append_empty] at h
      subst h
      rfl
    · rfl

/-- C10: a blank (empty or whitespace-only) raw response parses to the
metadata-free `{explanation := "", code := ""}` dict, every other input's
parse carries a metadata entry, and `generate_code_sync` — which reads
`parsed["metadata"]["parsing_confidence"]` — returns a structured failure
(`success = false`) whenever the accumulated stream text is empty, because
the missing key raises `KeyError`, caught by its handler. -/
theorem C10_blank_parse_sync (fb : String → List String) :
    (∀ s, pyStrip s = "" →
      parse_response fb s = ⟨"", "", none⟩) ∧
    (∀ s, pyStrip s ≠ "" → (parse_response fb s).metadata.isSome = true) ∧
    (∀ (jl : String → Option JVal) (resp : StreamResponse),
      accText (generate_code_streaming jl resp) = "" →
      (generate_code_sync fb jl resp).success = false) := by
  refine ⟨?_, ?_, ?_⟩
  · intro s h
    unfold parse_response
    rw [if_pos h]
  · intro s h
    unfold parse_response
    rw [if_neg h]
    rfl
  · intro jl resp h
    unfold generate_code_sync
    exact syncAux_empty fb _ "" (by simpa using h)

/-- C10 witness. -/
theorem C10_witness :
    parse_response (fun _ => []) " \n  " = ⟨"", "", none⟩ ∧
    (parse_response (fun _ => []) "x").metadata.isSome = true ∧
    (generate_code_sync (fun _ => []) (fun _ => none)
        ⟨true, 200, [], none⟩).success = false := by
  refine ⟨?_, ?_, ?_⟩
  · exact (C10_blank_parse_sync (fun _ => [])).1 " \n  " (by decide)
  · exact (C10_blank_parse_sync (fun _ => [])).2.1 "x" (by decide)
  · exact (C10_blank_parse_sync (fun _ => [])).2.2 (fun _ => none)
      ⟨true, 200, [], none⟩ rfl

end VllmService
